import Mathlib

/-!
Shallow embedding of the employee-performance tracker.

The aggregation engine (src/src/types/skills.ts, server actions
getOverallSkillAverages, getWeeklySkillTrends, getMonthlySkillTrends,
getPerformanceSummary) and the task store (submitTask, updateTask,
deleteTask, getUserTasks, getTaskById) are translated into pure Lean
functions.  Effectful steps are made explicit: the authenticated user is
an `Option String` (none = auth failure), each storage query result is an
`Except String` value or a Bool success flag, and the database is an
explicit record of row lists.  JavaScript numbers are modelled as `Int`
(raw 1-5 ratings) and `Rat` (computed averages and rates); the arithmetic
performed by the source on these values is exact in this range.  ISO date
strings are modelled by calendar dates / epoch-day numbers; the runtime is
assumed to be at UTC offset zero, so date-only strings, the Date getters
and toISOString all agree on the calendar day.
-/

namespace EmpPerf

/-! ### JavaScript array sorting

`Array.prototype.sort` is required to be stable.  A stable sort is
extensionally determined by the comparator, so we model it by a stable
insertion sort: an element is inserted after every element the comparator
lets stand before it. -/

/-- Insert `x` after every `y` with `le y x` (stable placement). -/
def insertRanked {α : Type} (le : α → α → Bool) (x : α) : List α → List α
  | [] => [x]
  | y :: ys => if le y x then y :: insertRanked le x ys else x :: y :: ys

/-- Stable sort by the comparator `le`, modelling `Array.prototype.sort`. -/
def jsSort {α : Type} (le : α → α → Bool) (l : List α) : List α :=
  l.foldl (fun acc x => insertRanked le x acc) []

/-! ### Aggregation data model (src/src/types/skills.ts) -/

/-- `SkillAverage` record: per-skill mean, count, min and max. -/
structure SkillAverage where
  skill_id : String
  skill_name : String
  average_rating : Rat
  rating_count : Nat
  min_rating : Int
  max_rating : Int
deriving DecidableEq, Repr

/-- One row of the manual fallback query in `getOverallSkillAverages`:
a rating together with the joined skill record (id, name), which the query
may return as null (`none`), already normalized from the object-or-array
shapes the storage layer can produce. -/
structure ObsRow where
  rating : Int
  skill : Option (String × String)
deriving DecidableEq, Repr

/-- `ratings.reduce((a, b) => a + b, 0)`. -/
def listSum (l : List Int) : Int := l.foldl (· + ·) 0

/-- `Math.min(...ratings)` on a nonempty list (the code only applies it to
nonempty groups; the `[]` case is an unused default). -/
def jsMin : List Int → Int
  | [] => 0
  | x :: xs => xs.foldl min x

/-- `Math.max(...ratings)` on a nonempty list. -/
def jsMax : List Int → Int
  | [] => 0
  | x :: xs => xs.foldl max x

/-- One step of building `skillMap`: push `r` onto the entry for `id`,
creating the entry (with `name`, at the end, as a JS Map does) on first
occurrence. -/
def insertObs : List (String × String × List Int) → String → String → Int →
    List (String × String × List Int)
  | [], id, name, r => [(id, name, [r])]
  | (k, n, rs) :: rest, id, name, r =>
    if k = id then (k, n, rs ++ [r]) :: rest
    else (k, n, rs) :: insertObs rest id name r

/-- The body of the `skillMap` grouping loop: rows whose joined skill is
null or has a falsy (empty) id or name are skipped. -/
def obsStep (m : List (String × String × List Int)) (row : ObsRow) :
    List (String × String × List Int) :=
  match row.skill with
  | some (id, name) =>
      if id ≠ "" ∧ name ≠ "" then insertObs m id name row.rating else m
  | none => m

/-- The `skillMap` grouping loop of `getOverallSkillAverages`. -/
def buildSkillMap (rows : List ObsRow) : List (String × String × List Int) :=
  rows.foldl obsStep []

/-- Turn one `skillMap` group into a `SkillAverage`. -/
def toSkillAverage (id name : String) (rs : List Int) : SkillAverage :=
  { skill_id := id
    skill_name := name
    average_rating := ((listSum rs : Int) : Rat) / ((rs.length : Nat) : Rat)
    rating_count := rs.length
    min_rating := jsMin rs
    max_rating := jsMax rs }

/-- The `all_skills` list before sorting, as built by the manual path of
`getOverallSkillAverages`. -/
def computeAllSkills (rows : List ObsRow) : List SkillAverage :=
  (buildSkillMap rows).map fun g => toSkillAverage g.1 g.2.1 g.2.2

/-- The comparator `(a, b) => b.average_rating - a.average_rating`:
`a` may stand before `b` exactly when the comparator is not positive. -/
def avgDescLe (a b : SkillAverage) : Bool :=
  decide (b.average_rating ≤ a.average_rating)

/-- Return shape of `getOverallSkillAverages`. -/
structure AggResult where
  all_skills : List SkillAverage
  strengths : List SkillAverage
  growth_opportunities : List SkillAverage
deriving DecidableEq, Repr

/-- Sort by mean descending, then `slice(0, 5)` and `slice(-5).reverse()`,
shared by both the RPC path and the manual fallback path. -/
def rankSkills (l : List SkillAverage) : AggResult :=
  let sorted := jsSort avgDescLe l
  { all_skills := sorted
    strengths := sorted.take 5
    growth_opportunities := (sorted.drop (sorted.length - 5)).reverse }

/-- The empty result returned on any failure. -/
def emptyAgg : AggResult :=
  { all_skills := [], strengths := [], growth_opportunities := [] }

/-- `getOverallSkillAverages`: auth failure or failure of both the RPC and
the manual fallback query yields the empty result (the whole body is inside
try/catch); otherwise the fetched rows are grouped, averaged, sorted and
sliced. -/
def getOverallSkillAverages (auth : Option String)
    (rpc : Except String (List SkillAverage))
    (manual : Except String (List ObsRow)) : AggResult :=
  match auth with
  | none => emptyAgg
  | some _ =>
    match rpc with
    | Except.ok data => rankSkills data
    | Except.error _ =>
      match manual with
      | Except.error _ => emptyAgg
      | Except.ok rows => rankSkills (computeAllSkills rows)

/-! ### Calendar dates and bucket keys

A date-only ISO string `YYYY-MM-DD` is parsed by `new Date(...)` to the UTC
midnight of that calendar day; with the runtime at UTC the getters
`getFullYear`, `getMonth`, `getDate`, `getDay` return that calendar day and
`toISOString().split('T')[0]` returns it unchanged.  We represent a parsed
date by its calendar components and identify bucket keys with epoch-day
numbers (days since 1970-01-01), the numeric equivalent of the ISO date
string keys the source produces. -/

/-- A calendar date (the date component of a task date). -/
structure CivilDate where
  year : Int
  month : Int
  day : Int
deriving DecidableEq, Repr

/-- Days since 1970-01-01 of a calendar date (the standard civil-from-days
conversion, matching the ECMAScript MakeDay arithmetic for date-only
strings).  `/` and `%` on `Int` are floor division and nonnegative
remainder, which this formulation relies on. -/
def daysFromCivil (y m d : Int) : Int :=
  let yAdj := if m ≤ 2 then y - 1 else y
  let era := yAdj / 400
  let yoe := yAdj - era * 400
  let mp := (m + 9) % 12
  let doy := (153 * mp + 2) / 5 + d - 1
  let doe := yoe * 365 + yoe / 4 - yoe / 100 + doy
  era * 146097 + doe - 719468

/-- Epoch day of a parsed task date. -/
def jsEpochDay (dt : CivilDate) : Int := daysFromCivil dt.year dt.month dt.day

/-- `Date.prototype.getDay`: 0 = Sunday, ..., 6 = Saturday
(1970-01-01 was a Thursday, day number 4). -/
def jsGetDay (dt : CivilDate) : Int := (jsEpochDay dt + 4) % 7

/-- The weekly bucket key of `getWeeklySkillTrends`:
`weekStart.setDate(taskDate.getDate() - taskDate.getDay() + 1)`.
`setDate` with an out-of-range day is plain day arithmetic on the epoch
day. -/
def weekBucket (dt : CivilDate) : Int := jsEpochDay dt - jsGetDay dt + 1

/-- The monthly bucket key of `getMonthlySkillTrends`:
`new Date(taskDate.getFullYear(), taskDate.getMonth(), 1)`. -/
def monthBucket (dt : CivilDate) : Int := daysFromCivil dt.year dt.month 1

/-- Modelled from the spec: the Monday on or before a given epoch day
(ISO week start).  Epoch day 4 (1970-01-05) was a Monday, so Mondays are
the days congruent to 4 modulo 7. -/
def mondayOnOrBefore (e : Int) : Int := e - (e + 3) % 7

/-! ### Trend aggregation (getWeeklySkillTrends / getMonthlySkillTrends) -/

/-- `SkillTrend` record; `period` is the bucket start as an epoch day
(the numeric form of the ISO date string key). -/
structure SkillTrend where
  skill_id : String
  skill_name : String
  period : Int
  average_rating : Rat
  rating_count : Nat
deriving DecidableEq, Repr

/-- One row of the trend queries: a rating, the joined skill (id, name) or
null, and the parent task date or null, already normalized from the
object-or-array join shapes. -/
structure TrendRow where
  rating : Int
  skill : Option (String × String)
  task_date : Option CivilDate
deriving DecidableEq, Repr

/-- Push a rating onto the bucket entry of the inner per-skill map,
appending a new bucket key on first occurrence (JS Map order). -/
def insertBucketObs : List (Int × List Int) → Int → Int → List (Int × List Int)
  | [], key, r => [(key, [r])]
  | (k, rs) :: rest, key, r =>
    if k = key then (k, rs ++ [r]) :: rest
    else (k, rs) :: insertBucketObs rest key r

/-- Push a rating onto `trendMap` under (skill id, bucket key). -/
def insertSkillBucket : List (String × List (Int × List Int)) → String → Int →
    Int → List (String × List (Int × List Int))
  | [], id, key, r => [(id, [(key, [r])])]
  | (k, buckets) :: rest, id, key, r =>
    if k = id then (k, insertBucketObs buckets key r) :: rest
    else (k, buckets) :: insertSkillBucket rest id key r

/-- The `trendMap` grouping loop: rows with a null skill, a falsy (empty)
skill id, or a null task date are skipped (the guard checks only
`skill?.id && task?.task_date`, not the name). -/
def buildTrendMap (bucket : CivilDate → Int) (rows : List TrendRow) :
    List (String × List (Int × List Int)) :=
  rows.foldl
    (fun m row =>
      match row.skill, row.task_date with
      | some (id, _), some dt =>
          if id ≠ "" then insertSkillBucket m id (bucket dt) row.rating else m
      | _, _ => m)
    []

/-- `data.find(...)` lookup of the skill name for a skill id, with the
`|| 'Unknown'` fallback for a missing row or falsy name. -/
def skillNameOf (rows : List TrendRow) (skillId : String) : String :=
  match rows.find? (fun row =>
      match row.skill with
      | some (id, _) => id = skillId
      | none => false) with
  | some row =>
    match row.skill with
    | some (_, name) => if name = "" then "Unknown" else name
    | none => "Unknown"
  | none => "Unknown"

/-- Comparator `(a, b) => a.period.localeCompare(b.period)`: on ISO date
keys this is chronological order of the epoch days. -/
def periodLe (a b : SkillTrend) : Bool := decide (a.period ≤ b.period)

/-- Shared body of both trend functions: group by (skill, bucket), average
each group, flatten in map insertion order, sort by period ascending. -/
def computeTrends (bucket : CivilDate → Int) (rows : List TrendRow) :
    List SkillTrend :=
  let m := buildTrendMap bucket rows
  let trends :=
    (m.map fun g =>
      g.2.map fun b =>
        { skill_id := g.1
          skill_name := skillNameOf rows g.1
          period := b.1
          average_rating := ((listSum b.2 : Int) : Rat) / ((b.2.length : Nat) : Rat)
          rating_count := b.2.length : SkillTrend }).flatten
  jsSort periodLe trends

/-- `getWeeklySkillTrends`: auth failure, a query error, or any thrown
error yields the empty list; otherwise the rows are bucketed by week. -/
def getWeeklySkillTrends (auth : Option String)
    (q : Except String (List TrendRow)) : List SkillTrend :=
  match auth, q with
  | some _, Except.ok rows => computeTrends weekBucket rows
  | _, _ => []

/-- `getMonthlySkillTrends`: same shape with monthly buckets. -/
def getMonthlySkillTrends (auth : Option String)
    (q : Except String (List TrendRow)) : List SkillTrend :=
  match auth, q with
  | some _, Except.ok rows => computeTrends monthBucket rows
  | _, _ => []

/-! ### Performance summary (getPerformanceSummary) -/

/-- Projection of a `tasks` row onto the fields the summary reads; the
task date is an epoch day (`gte`/`lte` on the date column is numeric
comparison of the days). -/
structure ATask where
  id : String
  user_id : String
  task_date : Int
  delivered_on_time : Bool
  manager_found_issues : Bool
  manager_helped_analysis : Bool
deriving DecidableEq, Repr

/-- A `skill_ratings` row as read by the aggregation queries. -/
structure ARating where
  task_id : String
  skill_id : String
  rating : Int
deriving DecidableEq, Repr

/-- A `skills` row as read by the aggregation queries. -/
structure ASkill where
  id : String
  name : String
deriving DecidableEq, Repr

/-- The stored rows the aggregation entry points query. -/
structure AggDB where
  tasks : List ATask
  ratings : List ARating
  skills : List ASkill
deriving DecidableEq, Repr

/-- The manual all-time observation query of `getOverallSkillAverages`
for one user: every rating row inner-joined to a task of that user, with
the joined skill or null.  No date filter. -/
def obsForUser (db : AggDB) (uid : String) : List ObsRow :=
  db.ratings.filterMap fun r =>
    match db.tasks.find? (fun t => t.id = r.task_id) with
    | some t =>
      if t.user_id = uid then
        some { rating := r.rating
               skill := (db.skills.find? (fun s => s.id = r.skill_id)).map
                 (fun s => (s.id, s.name)) }
      else none
    | none => none

/-- The summary task query: the tasks of the user, restricted by the
optional start/end date filters. -/
def filteredTasks (db : AggDB) (uid : String) (startD endD : Option Int) :
    List ATask :=
  db.tasks.filter fun t =>
    decide (t.user_id = uid) &&
    (match startD with | some s => decide (s ≤ t.task_date) | none => true) &&
    (match endD with | some e => decide (t.task_date ≤ e) | none => true)

/-- `PerformanceSummary` record. -/
structure PerformanceSummary where
  total_tasks : Nat
  overall_average : Rat
  skill_averages : List SkillAverage
  strengths : List SkillAverage
  growth_opportunities : List SkillAverage
  on_time_delivery_rate : Rat
  manager_issues_rate : Rat
  manager_helped_rate : Rat
deriving DecidableEq, Repr

/-- The all-zero summary literal the source returns for an empty task set
and from its catch handler. -/
def zeroSummary : PerformanceSummary :=
  { total_tasks := 0
    overall_average := 0
    skill_averages := []
    strengths := []
    growth_opportunities := []
    on_time_delivery_rate := 0
    manager_issues_rate := 0
    manager_helped_rate := 0 }

/-- `all_skills.reduce((sum, skill) => sum + skill.average_rating, 0)`. -/
def listSumQ (l : List Rat) : Rat := l.foldl (· + ·) 0

/-- `getPerformanceSummary`: fetches the date-filtered tasks of the user,
returns the zero summary when that set is empty (or on auth failure or a
task query error, via throw and catch), computes the three rates over the
filtered set, and takes `all_skills`, `strengths`, `growth_opportunities`
and the overall average from `getOverallSkillAverages()`, which queries the
all-time observations of the user (`obsForUser`), not the filtered set.
`rpc` and `manualOk` are the effect results of that inner call. -/
def getPerformanceSummary (auth : Option String) (db : AggDB)
    (startD endD : Option Int) (tasksFetchOk : Bool)
    (rpc : Except String (List SkillAverage)) (manualOk : Bool) :
    PerformanceSummary :=
  match auth with
  | none => zeroSummary
  | some uid =>
    if tasksFetchOk then
      let tasks := filteredTasks db uid startD endD
      let total_tasks := tasks.length
      if total_tasks = 0 then zeroSummary
      else
        let on_time_count := (tasks.filter (fun t => t.delivered_on_time)).length
        let manager_issues_count :=
          (tasks.filter (fun t => t.manager_found_issues)).length
        let manager_helped_count :=
          (tasks.filter (fun t => t.manager_helped_analysis)).length
        let agg := getOverallSkillAverages (some uid) rpc
          (if manualOk then Except.ok (obsForUser db uid)
           else Except.error "storage failure")
        let overall_average :=
          if 0 < agg.all_skills.length then
            listSumQ (agg.all_skills.map (fun sa => sa.average_rating)) /
              ((agg.all_skills.length : Nat) : Rat)
          else 0
        { total_tasks := total_tasks
          overall_average := overall_average
          skill_averages := agg.all_skills
          strengths := agg.strengths
          growth_opportunities := agg.growth_opportunities
          on_time_delivery_rate :=
            (((on_time_count : Nat) : Rat) / ((total_tasks : Nat) : Rat)) * 100
          manager_issues_rate :=
            (((manager_issues_count : Nat) : Rat) / ((total_tasks : Nat) : Rat)) * 100
          manager_helped_rate :=
            (((manager_helped_count : Nat) : Rat) / ((total_tasks : Nat) : Rat)) * 100 }
    else zeroSummary

/-! ### Task store (the server actions of src/unnamed/part_000)

The store operates on explicit row lists.  Each storage call that can fail
for external reasons is given a Bool success flag; a `false` flag models
the call returning an error object (or throwing), exactly at the point the
source checks it.  The authenticated user is again `Option String`. -/

/-- A `skills` table row. -/
structure SkillRow where
  id : String
  name : String
  is_active : Bool
deriving DecidableEq, Repr

/-- A `tasks` table row (the fields the store writes). -/
structure TaskRow where
  id : String
  user_id : String
  title : String
  description : String
  task_date : String
  external_link : Option String
  priority : String
  delivered_on_time : Bool
  manager_found_issues : Bool
  manager_notes : Option String
  manager_helped_analysis : Bool
deriving DecidableEq, Repr

/-- A `skill_ratings` table row as written by the store. -/
structure RatingRow where
  task_id : String
  skill_id : String
  rating : Int
deriving DecidableEq, Repr

/-- The persistent state the store reads and writes. -/
structure DB where
  skills : List SkillRow
  tasks : List TaskRow
  ratings : List RatingRow
deriving DecidableEq, Repr

/-- `TaskSubmissionFormData`; `skill_ratings` is the entry list of the
`Map<string, number>` in insertion order (its keys are distinct). -/
structure FormData where
  title : String
  description : String
  task_date : String
  external_link : Option String
  priority : String
  delivered_on_time : Bool
  manager_found_issues : Bool
  manager_notes : Option String
  manager_helped_analysis : Bool
  skill_ratings : List (String × Int)
deriving DecidableEq, Repr

/-- Result of a store mutation: `{ success: true }` or `{ error: msg }`. -/
inductive StoreResult where
  | success
  | error (msg : String)
deriving DecidableEq, Repr

/-- `getAllSkills`: the active skills, ordered by name ascending. -/
def getAllSkills (db : DB) : List SkillRow :=
  jsSort (fun a b => decide (a.name ≤ b.name))
    (db.skills.filter (fun s => s.is_active))

/-- `x || null` on an optional string field: empty string becomes null. -/
def orNull (x : Option String) : Option String :=
  x.bind fun s => if s = "" then none else some s

/-- The task row written by `submitTask` for user `uid` with fresh id
`newId`. -/
def taskFromForm (newId uid : String) (fd : FormData) : TaskRow :=
  { id := newId
    user_id := uid
    title := fd.title
    description := fd.description
    task_date := fd.task_date
    external_link := orNull fd.external_link
    priority := fd.priority
    delivered_on_time := fd.delivered_on_time
    manager_found_issues := fd.manager_found_issues
    manager_notes := orNull fd.manager_notes
    manager_helped_analysis := fd.manager_helped_analysis }

/-- The field update `updateTask` applies to the existing task row
(the id and owner are untouched). -/
def applyFormUpdate (t : TaskRow) (fd : FormData) : TaskRow :=
  { t with
    title := fd.title
    description := fd.description
    task_date := fd.task_date
    external_link := orNull fd.external_link
    priority := fd.priority
    delivered_on_time := fd.delivered_on_time
    manager_found_issues := fd.manager_found_issues
    manager_notes := orNull fd.manager_notes
    manager_helped_analysis := fd.manager_helped_analysis }

/-- The rating rows inserted for a task from the form map entries. -/
def ratingsFromForm (taskId : String) (fd : FormData) : List RatingRow :=
  fd.skill_ratings.map fun e => { task_id := taskId, skill_id := e.1, rating := e.2 }

/-- `submitTask`: auth, fetch the active skills, validate that the rating
map size equals the active-skill count, insert the task row, insert the
rating rows; if the rating insert fails the task row is deleted again
(compensating rollback) before the error is returned. -/
def submitTask (auth : Option String) (db : DB) (fd : FormData)
    (skillsFetchOk taskInsertOk ratingsInsertOk : Bool) (newId : String) :
    StoreResult × DB :=
  match auth with
  | none => (StoreResult.error "Not authenticated", db)
  | some uid =>
    if skillsFetchOk then
      let skills := getAllSkills db
      if fd.skill_ratings.length ≠ skills.length then
        (StoreResult.error "All skills must be rated", db)
      else if taskInsertOk then
        let db1 : DB := { db with tasks := db.tasks ++ [taskFromForm newId uid fd] }
        if ratingsInsertOk then
          (StoreResult.success,
            { db1 with ratings := db1.ratings ++ ratingsFromForm newId fd })
        else
          (StoreResult.error "Failed to save skill ratings",
            { db1 with tasks := db1.tasks.filter (fun t => ¬ (t.id = newId)) })
      else (StoreResult.error "Failed to create task", db)
    else (StoreResult.error "Failed to fetch skills", db)

/-- `updateTask`: auth, fetch the task row (not-found error if absent),
ownership check, active-skill size validation, field update, deletion of
the existing rating rows (its error object is not checked in the source),
then insertion of the new rating rows; if that insert fails the error is
returned with the ratings already deleted and not restored. -/
def updateTask (auth : Option String) (db : DB) (taskId : String)
    (fd : FormData) (skillsFetchOk taskUpdateOk ratingsInsertOk : Bool) :
    StoreResult × DB :=
  match auth with
  | none => (StoreResult.error "Not authenticated", db)
  | some uid =>
    match db.tasks.find? (fun t => t.id = taskId) with
    | none => (StoreResult.error "Task not found", db)
    | some t =>
      if t.user_id ≠ uid then
        (StoreResult.error "Not authorized to update this task", db)
      else if skillsFetchOk then
        let skills := getAllSkills db
        if fd.skill_ratings.length ≠ skills.length then
          (StoreResult.error "All skills must be rated", db)
        else if taskUpdateOk then
          let db1 : DB := { db with
            tasks := db.tasks.map fun x =>
              if x.id = taskId then applyFormUpdate x fd else x }
          let db2 : DB := { db1 with
            ratings := db1.ratings.filter (fun r => ¬ (r.task_id = taskId)) }
          if ratingsInsertOk then
            (StoreResult.success,
              { db2 with ratings := db2.ratings ++ ratingsFromForm taskId fd })
          else (StoreResult.error "Failed to update skill ratings", db2)
        else (StoreResult.error "Failed to update task", db)
      else (StoreResult.error "Failed to fetch skills", db)

/-- `deleteTask`: auth, fetch, ownership check, then delete the task row,
which cascades to its rating rows. -/
def deleteTask (auth : Option String) (db : DB) (taskId : String)
    (deleteOk : Bool) : StoreResult × DB :=
  match auth with
  | none => (StoreResult.error "Not authenticated", db)
  | some uid =>
    match db.tasks.find? (fun t => t.id = taskId) with
    | none => (StoreResult.error "Task not found", db)
    | some t =>
      if t.user_id ≠ uid then
        (StoreResult.error "Not authorized to delete this task", db)
      else if deleteOk then
        (StoreResult.success,
          { db with
            tasks := db.tasks.filter (fun x => ¬ (x.id = taskId))
            ratings := db.ratings.filter (fun r => ¬ (r.task_id = taskId)) })
      else (StoreResult.error "Failed to delete task", db)

/-- A task with its rating rows and computed mean, as returned by the read
operations. -/
structure TaskWithDetails where
  task : TaskRow
  skill_ratings : List RatingRow
  average_rating : Rat
deriving DecidableEq, Repr

/-- The rating rows of one task. -/
def ratingsOf (db : DB) (taskId : String) : List RatingRow :=
  db.ratings.filter fun r => r.task_id = taskId

/-- Annotate a task with its ratings and their mean (0 when it has no
ratings). -/
def withDetails (db : DB) (t : TaskRow) : TaskWithDetails :=
  let rs := ratingsOf db t.id
  { task := t
    skill_ratings := rs
    average_rating :=
      if 0 < rs.length then
        ((listSum (rs.map (fun r => r.rating)) : Int) : Rat) / ((rs.length : Nat) : Rat)
      else 0 }

/-- `getUserTasks`: auth failure, a target user other than the caller, or
a query error all produce the empty list (the deny branch throws and the
catch returns `[]`).  Otherwise: the tasks of the caller ordered by task
date descending, paged by offset/limit, each annotated with its mean
rating. -/
def getUserTasks (auth : Option String) (userId : Option String) (db : DB)
    (limit offset : Nat) (fetchOk : Bool) : List TaskWithDetails :=
  match auth with
  | none => []
  | some u =>
    let targetUserId := userId.getD u
    if targetUserId ≠ u then []
    else if fetchOk then
      let own := db.tasks.filter fun t => t.user_id = targetUserId
      let sorted := jsSort (fun a b => decide (b.task_date ≤ a.task_date)) own
      ((sorted.drop offset).take limit).map (withDetails db)
    else []

/-- `getTaskById`: a missing task, a query error, auth failure, or a task
owned by another user all produce `null` (the ownership branch throws and
the catch returns `null`); otherwise the task with its ratings and mean. -/
def getTaskById (auth : Option String) (db : DB) (taskId : String) :
    Option TaskWithDetails :=
  match auth with
  | none => none
  | some u =>
    match db.tasks.find? (fun t => t.id = taskId) with
    | none => none
    | some t =>
      if t.user_id ≠ u then none
      else some (withDetails db t)

/-! ### Spec-side definitions

These definitions follow the words of the spec, for comparison with the
definitions above, which are translated from the source. -/

/-- Modelled from the spec: the order `getOverallSkillAverages` is claimed
to produce — mean descending, ties by higher count first, then by skill
name ascending. -/
def specTieBreakOrder (a b : SkillAverage) : Prop :=
  b.average_rating < a.average_rating ∨
    (a.average_rating = b.average_rating ∧
      (b.rating_count < a.rating_count ∨
        (a.rating_count = b.rating_count ∧ a.skill_name ≤ b.skill_name)))

instance : DecidablePred fun p : SkillAverage × SkillAverage =>
    specTieBreakOrder p.1 p.2 := by
  intro p
  unfold specTieBreakOrder
  infer_instance

/-- The ratings that enter the grouping of `getOverallSkillAverages`
(rows whose joined skill is present with truthy id and name). -/
def validRatings (rows : List ObsRow) : List Int :=
  rows.filterMap fun row =>
    match row.skill with
    | some (id, name) =>
        if id ≠ "" ∧ name ≠ "" then some row.rating else none
    | none => none

/-- The arithmetic mean of the per-skill means of a skill-average list. -/
def meanOfMeans (l : List SkillAverage) : Rat :=
  listSumQ (l.map fun sa => sa.average_rating) / ((l.length : Nat) : Rat)

/-- The mean of all raw ratings entering the grouping. -/
def rawMean (rows : List ObsRow) : Rat :=
  ((listSum (validRatings rows) : Int) : Rat) /
    (((validRatings rows).length : Nat) : Rat)

/-! ### Lemmas about the stable sort -/

theorem insertRanked_perm {α : Type} (le : α → α → Bool) (x : α)
    (l : List α) : (insertRanked le x l).Perm (x :: l) := by
  induction l with
  | nil => simp [insertRanked]
  | cons y ys ih =>
    by_cases h : le y x
    · simpa [insertRanked, h] using
        ((ih.cons y).trans (List.Perm.swap x y ys))
    · simp [insertRanked, h]

theorem jsSort_aux_perm {α : Type} (le : α → α → Bool) :
    ∀ (l acc : List α),
      (l.foldl (fun a x => insertRanked le x a) acc).Perm (acc ++ l) := by
  intro l
  induction l with
  | nil => intro acc; simp
  | cons x xs ih =>
    intro acc
    have h1 := ih (insertRanked le x acc)
    have h2 : (insertRanked le x acc ++ xs).Perm ((x :: acc) ++ xs) :=
      (insertRanked_perm le x acc).append_right xs
    have h3 : ((x :: acc) ++ xs).Perm (acc ++ x :: xs) := by
      simpa using List.perm_middle.symm
    exact (h1.trans h2).trans h3

theorem jsSort_perm {α : Type} (le : α → α → Bool) (l : List α) :
    (jsSort le l).Perm l := by
  simpa using jsSort_aux_perm le l []

theorem mem_insertRanked {α : Type} {le : α → α → Bool} {x z : α}
    {l : List α} : z ∈ insertRanked le x l ↔ z = x ∨ z ∈ l := by
  rw [(insertRanked_perm le x l).mem_iff, List.mem_cons]

theorem insertRanked_pairwise {α : Type} {le : α → α → Bool}
    (htot : ∀ a b, le a b = true ∨ le b a = true)
    (htrans : ∀ a b c, le a b = true → le b c = true → le a c = true)
    (x : α) {l : List α} (h : l.Pairwise fun a b => le a b = true) :
    (insertRanked le x l).Pairwise fun a b => le a b = true := by
  induction l with
  | nil => simp [insertRanked]
  | cons y ys ih =>
    rcases List.pairwise_cons.mp h with ⟨h1, h2⟩
    by_cases hyx : le y x = true
    · rw [insertRanked, if_pos hyx]
      refine List.pairwise_cons.mpr ⟨?_, ih h2⟩
      intro z hz
      rcases mem_insertRanked.mp hz with rfl | hz
      · exact hyx
      · exact h1 z hz
    · rw [insertRanked, if_neg hyx]
      refine List.pairwise_cons.mpr ⟨?_, h⟩
      intro z hz
      have hxy : le x y = true := (htot x y).resolve_right hyx
      rcases List.mem_cons.mp hz with rfl | hz
      · exact hxy
      · exact htrans x y z hxy (h1 z hz)

theorem jsSort_aux_pairwise {α : Type} {le : α → α → Bool}
    (htot : ∀ a b, le a b = true ∨ le b a = true)
    (htrans : ∀ a b c, le a b = true → le b c = true → le a c = true) :
    ∀ (l acc : List α), (acc.Pairwise fun a b => le a b = true) →
      ((l.foldl (fun a x => insertRanked le x a) acc).Pairwise
        fun a b => le a b = true) := by
  intro l
  induction l with
  | nil => intro acc h; simpa using h
  | cons x xs ih =>
    intro acc h
    exact ih _ (insertRanked_pairwise htot htrans x h)

theorem jsSort_pairwise {α : Type} {le : α → α → Bool}
    (htot : ∀ a b, le a b = true ∨ le b a = true)
    (htrans : ∀ a b c, le a b = true → le b c = true → le a c = true)
    (l : List α) :
    (jsSort le l).Pairwise fun a b => le a b = true :=
  jsSort_aux_pairwise htot htrans l [] (by simp)

theorem insertRanked_filter_neg {α : Type} (le : α → α → Bool) (p : α → Bool)
    (x : α) (l : List α) (hx : p x = false) :
    (insertRanked le x l).filter p = l.filter p := by
  induction l with
  | nil => simp [insertRanked, hx]
  | cons y ys ih =>
    by_cases h : le y x = true
    · rw [insertRanked, if_pos h]
      simp [List.filter_cons, ih]
    · rw [insertRanked, if_neg h]
      simp [List.filter_cons, hx]

theorem insertRanked_filter_pos {α : Type} (le : α → α → Bool) (p : α → Bool)
    (htrans : ∀ a b c, le a b = true → le b c = true → le a c = true)
    (x : α) (hx : p x = true)
    (hclass : ∀ z, p z = true → le z x = true) :
    ∀ l : List α, (l.Pairwise fun a b => le a b = true) →
      (insertRanked le x l).filter p = l.filter p ++ [x] := by
  intro l
  induction l with
  | nil => intro _; simp [insertRanked, hx]
  | cons y ys ih =>
    intro hsorted
    rcases List.pairwise_cons.mp hsorted with ⟨h1, h2⟩
    by_cases h : le y x = true
    · rw [insertRanked, if_pos h]
      by_cases hy : p y = true
      · simp [List.filter_cons, hy, ih h2]
      · simp [List.filter_cons, hy, ih h2]
    · rw [insertRanked, if_neg h]
      have hfil : (y :: ys).filter p = [] := by
        apply List.filter_eq_nil_iff.mpr
        intro z hz
        rcases List.mem_cons.mp hz with rfl | hz2
        · intro hpz
          exact h (hclass z hpz)
        · intro hpz
          exact h (htrans y z x (h1 z hz2) (hclass z hpz))
      rw [List.filter_cons, if_pos hx, hfil]
      rfl

/-- Stability of the modelled JS sort: for any class of mutually tied
elements (selected by `p`), the sorted output contains exactly the
members of that class in their original relative order. -/
theorem jsSort_stable_filter {α : Type} (le : α → α → Bool) (p : α → Bool)
    (htot : ∀ a b, le a b = true ∨ le b a = true)
    (htrans : ∀ a b c, le a b = true → le b c = true → le a c = true)
    (hmut : ∀ a b, p a = true → p b = true → le a b = true)
    (l : List α) : (jsSort le l).filter p = l.filter p := by
  have aux : ∀ (l acc : List α), (acc.Pairwise fun a b => le a b = true) →
      (l.foldl (fun a x => insertRanked le x a) acc).filter p =
        acc.filter p ++ l.filter p := by
    intro l
    induction l with
    | nil => intro acc _; simp
    | cons x xs ih =>
      intro acc hacc
      rw [List.foldl_cons, ih _ (insertRanked_pairwise htot htrans x hacc)]
      by_cases hx : p x = true
      · rw [insertRanked_filter_pos le p htrans x hx
          (fun z hz => hmut z x hz hx) acc hacc]
        simp [List.filter_cons, hx]
      · rw [insertRanked_filter_neg le p x acc (by simpa using hx)]
        simp [List.filter_cons, hx]
  simpa using aux l []

theorem avgDescLe_total :
    ∀ a b : SkillAverage, avgDescLe a b = true ∨ avgDescLe b a = true := by
  intro a b
  rcases le_total b.average_rating a.average_rating with h | h
  · exact Or.inl (decide_eq_true h)
  · exact Or.inr (decide_eq_true h)

theorem avgDescLe_trans :
    ∀ a b c : SkillAverage, avgDescLe a b = true → avgDescLe b c = true →
      avgDescLe a c = true := by
  intro a b c hab hbc
  exact decide_eq_true (le_trans (of_decide_eq_true hbc) (of_decide_eq_true hab))

theorem rankSkills_sorted (l : List SkillAverage) :
    List.Sorted (fun a b : SkillAverage => b.average_rating ≤ a.average_rating)
      (rankSkills l).all_skills :=
  (jsSort_pairwise avgDescLe_total avgDescLe_trans l).imp
    fun h => of_decide_eq_true h

theorem take_drop_shape {α : Type} (s : List α) :
    (s.take 5).length = min 5 s.length ∧
    ((s.drop (s.length - 5)).reverse).length = min 5 s.length ∧
    s.take 5 <+: s ∧
    s.drop (s.length - 5) <:+ s := by
  refine ⟨List.length_take 5 s, ?_, ⟨s.drop 5, List.take_append_drop 5 s⟩,
    ⟨s.take (s.length - 5), List.take_append_drop (s.length - 5) s⟩⟩
  rw [List.length_reverse, List.length_drop]
  omega

/-! ### Claim theorems -/

/-- C1 (counterexample): the observation dated Sunday 2024-01-07 is
bucketed by `getWeeklySkillTrends` under 2024-01-08 — the Monday after it —
whereas the Monday on or before 2024-01-07 is 2024-01-01.  The claimed
bucket rule (Monday on or before the task date) is false on Sundays,
because `taskDate.getDay()` is 0 on Sunday and the source computes
`getDate() - getDay() + 1`. -/
theorem c1_counterexample :
    getWeeklySkillTrends (some "u")
        (Except.ok [⟨4, some ("s1", "Testing"), some ⟨2024, 1, 7⟩⟩]) =
      [⟨"s1", "Testing", daysFromCivil 2024 1 8, 4, 1⟩] ∧
    mondayOnOrBefore (jsEpochDay ⟨2024, 1, 7⟩) = daysFromCivil 2024 1 1 ∧
    daysFromCivil 2024 1 8 ≠ daysFromCivil 2024 1 1 := by
  refine ⟨?_, by decide, by decide⟩
  norm_num +decide [getWeeklySkillTrends, computeTrends, buildTrendMap,
    insertSkillBucket, insertBucketObs, skillNameOf, jsSort, insertRanked,
    periodLe, listSum, weekBucket, jsEpochDay, jsGetDay, daysFromCivil]

/-- C1 (amended): bucket keys are pure functions of the calendar date
(with the runtime at UTC).  The monthly bucket is the first calendar day
of the observation month, as claimed.  The weekly bucket is always a
Monday, and equals the Monday on or before the task date for dates falling
on Monday through Saturday, but the following Monday for dates falling on
Sunday (`getDay() = 0`). -/
theorem c1_amended_bucket_keys (dt : CivilDate) :
    weekBucket dt =
      mondayOnOrBefore (jsEpochDay dt) + (if jsGetDay dt = 0 then 7 else 0) ∧
    (weekBucket dt + 4) % 7 = 1 ∧
    mondayOnOrBefore (jsEpochDay dt) ≤ jsEpochDay dt ∧
    jsEpochDay dt < mondayOnOrBefore (jsEpochDay dt) + 7 ∧
    (mondayOnOrBefore (jsEpochDay dt) + 4) % 7 = 1 ∧
    monthBucket dt = jsEpochDay ⟨dt.year, dt.month, 1⟩ := by
  refine ⟨?_, ?_, ?_, ?_, ?_, rfl⟩
  · show jsEpochDay dt - (jsEpochDay dt + 4) % 7 + 1 =
      (jsEpochDay dt - (jsEpochDay dt + 3) % 7) +
        (if (jsEpochDay dt + 4) % 7 = 0 then 7 else 0)
    by_cases h : (jsEpochDay dt + 4) % 7 = 0
    · rw [if_pos h]
      omega
    · rw [if_neg h]
      omega
  · show (jsEpochDay dt - (jsEpochDay dt + 4) % 7 + 1 + 4) % 7 = 1
    omega
  · show jsEpochDay dt - (jsEpochDay dt + 3) % 7 ≤ jsEpochDay dt
    omega
  · show jsEpochDay dt < jsEpochDay dt - (jsEpochDay dt + 3) % 7 + 7
    omega
  · show (jsEpochDay dt - (jsEpochDay dt + 3) % 7 + 4) % 7 = 1
    omega

/-- C5 (counterexample): with one rating 3 for skill (id "b", name "B")
arriving before two ratings 3 for skill (id "a", name "A"), both skills
have mean 3 and the sorted list keeps "b" (count 1) before "a" (count 2);
the claimed order (ties broken by higher count first, then name ascending)
would put "a" first, so the output violates the claimed order. -/
theorem c5_counterexample :
    ¬ List.Pairwise specTieBreakOrder
      ((getOverallSkillAverages (some "u") (Except.error "e")
        (Except.ok [⟨3, some ("b", "B")⟩, ⟨3, some ("a", "A")⟩,
          ⟨3, some ("a", "A")⟩])).all_skills) := by
  have heq : (getOverallSkillAverages (some "u") (Except.error "e")
      (Except.ok [⟨3, some ("b", "B")⟩, ⟨3, some ("a", "A")⟩,
        ⟨3, some ("a", "A")⟩])).all_skills =
      [⟨"b", "B", 3, 1, 3, 3⟩, ⟨"a", "A", 3, 2, 3, 3⟩] := by
    norm_num +decide [getOverallSkillAverages, rankSkills, computeAllSkills,
      buildSkillMap, obsStep, insertObs, toSkillAverage, jsSort, insertRanked,
      avgDescLe, listSum, jsMin, jsMax]
  rw [heq]
  intro h
  have h1 := (List.pairwise_cons.mp h).1 ⟨"a", "A", 3, 2, 3, 3⟩ (by simp)
  norm_num +decide [specTieBreakOrder] at h1

/-- C5 (amended): the skill-average list is sorted by mean rating
descending only — no count or name tie-break is applied; the output is a
permutation of the unsorted grouped list, and the sort is stable: for
every mean value `q`, the entries with mean `q` appear in the output as
exactly the subsequence they form in the unsorted input, in the same
relative order.  This holds on both the RPC path and the manual fallback
path, and vacuously on the failure paths. -/
theorem c5_amended_sort_mean_desc :
    (∀ (auth : Option String) (rpc : Except String (List SkillAverage))
        (manual : Except String (List ObsRow)),
      List.Sorted (fun a b : SkillAverage => b.average_rating ≤ a.average_rating)
        (getOverallSkillAverages auth rpc manual).all_skills) ∧
    (∀ (u : String) (data : List SkillAverage)
        (manual : Except String (List ObsRow)),
      ((getOverallSkillAverages (some u) (Except.ok data) manual).all_skills).Perm
        data) ∧
    (∀ (u er : String) (rows : List ObsRow),
      ((getOverallSkillAverages (some u) (Except.error er)
        (Except.ok rows)).all_skills).Perm (computeAllSkills rows)) ∧
    (∀ (u : String) (data : List SkillAverage)
        (manual : Except String (List ObsRow)) (q : Rat),
      ((getOverallSkillAverages (some u) (Except.ok data) manual).all_skills.filter
        (fun sa => decide (sa.average_rating = q))) =
        data.filter (fun sa => decide (sa.average_rating = q))) ∧
    (∀ (u er : String) (rows : List ObsRow) (q : Rat),
      ((getOverallSkillAverages (some u) (Except.error er)
        (Except.ok rows)).all_skills.filter
        (fun sa => decide (sa.average_rating = q))) =
        (computeAllSkills rows).filter
          (fun sa => decide (sa.average_rating = q))) := by
  have hmut : ∀ (q : Rat) (a b : SkillAverage),
      decide (a.average_rating = q) = true →
      decide (b.average_rating = q) = true → avgDescLe a b = true := by
    intro q a b ha hb
    have ha2 := of_decide_eq_true ha
    have hb2 := of_decide_eq_true hb
    exact decide_eq_true (le_of_eq (by rw [ha2, hb2]))
  refine ⟨?_, ?_, ?_, ?_, ?_⟩
  · intro auth rpc manual
    cases auth with
    | none => exact List.sorted_nil
    | some u =>
      cases rpc with
      | ok data => exact rankSkills_sorted data
      | error e1 =>
        cases manual with
        | error e2 => exact List.sorted_nil
        | ok rows => exact rankSkills_sorted (computeAllSkills rows)
  · intro u data manual
    exact jsSort_perm avgDescLe data
  · intro u er rows
    exact jsSort_perm avgDescLe (computeAllSkills rows)
  · intro u data manual q
    exact jsSort_stable_filter avgDescLe _ avgDescLe_total avgDescLe_trans
      (hmut q) data
  · intro u er rows q
    exact jsSort_stable_filter avgDescLe _ avgDescLe_total avgDescLe_trans
      (hmut q) (computeAllSkills rows)

/-- C6 (confirmed): `strengths` is the first five entries of the sorted
`all_skills` list, `growth_opportunities` is the last five entries of that
same list reversed; reversing `growth_opportunities` yields the tail of
the sorted list (a suffix), both have length `min 5` the list length (so
with at most five entries they cover the same full list and may overlap),
and no deduplication happens. -/
theorem c6_top_bottom_same_sorted_list (auth : Option String)
    (rpc : Except String (List SkillAverage))
    (manual : Except String (List ObsRow)) :
    let r := getOverallSkillAverages auth rpc manual
    r.strengths = r.all_skills.take 5 ∧
    r.growth_opportunities =
      (r.all_skills.drop (r.all_skills.length - 5)).reverse ∧
    r.growth_opportunities.reverse =
      r.all_skills.drop (r.all_skills.length - 5) ∧
    r.strengths.length = min 5 r.all_skills.length ∧
    r.growth_opportunities.length = min 5 r.all_skills.length ∧
    r.strengths <+: r.all_skills ∧
    r.growth_opportunities.reverse <:+ r.all_skills := by
  have key : ∀ l : List SkillAverage,
      (rankSkills l).strengths = (rankSkills l).all_skills.take 5 ∧
      (rankSkills l).growth_opportunities =
        ((rankSkills l).all_skills.drop
          ((rankSkills l).all_skills.length - 5)).reverse ∧
      (rankSkills l).growth_opportunities.reverse =
        (rankSkills l).all_skills.drop ((rankSkills l).all_skills.length - 5) ∧
      (rankSkills l).strengths.length = min 5 (rankSkills l).all_skills.length ∧
      (rankSkills l).growth_opportunities.length =
        min 5 (rankSkills l).all_skills.length ∧
      (rankSkills l).strengths <+: (rankSkills l).all_skills ∧
      (rankSkills l).growth_opportunities.reverse <:+ (rankSkills l).all_skills := by
    intro l
    obtain ⟨h1, h2, h3, h4⟩ := take_drop_shape (jsSort avgDescLe l)
    refine ⟨rfl, rfl, List.reverse_reverse _, h1, h2, h3, ?_⟩
    show ((jsSort avgDescLe l).drop _).reverse.reverse <:+ jsSort avgDescLe l
    rw [List.reverse_reverse]
    exact h4
  cases auth with
  | none => exact ⟨rfl, rfl, rfl, rfl, rfl, ⟨[], rfl⟩, ⟨[], rfl⟩⟩
  | some u =>
    cases rpc with
    | ok data => exact key data
    | error e1 =>
      cases manual with
      | error e2 => exact ⟨rfl, rfl, rfl, rfl, rfl, ⟨[], rfl⟩, ⟨[], rfl⟩⟩
      | ok rows => exact key (computeAllSkills rows)

/-- C10 (confirmed): the four aggregation entry points are total functions
of their effect inputs, and every failure input — missing authentication,
a failed query (for the overall averages: failure of both the RPC and the
fallback query) — produces the empty or all-zero result, which is exactly
the result produced for a user with no data. -/
theorem c10_total_empty_on_failure
    (u e1 e2 : String) (rpc : Except String (List SkillAverage))
    (manual : Except String (List ObsRow)) (q : Except String (List TrendRow))
    (db : AggDB) (s e : Option Int) (ok mok : Bool) :
    getOverallSkillAverages none rpc manual = emptyAgg ∧
    getOverallSkillAverages (some u) (Except.error e1) (Except.error e2) =
      emptyAgg ∧
    getOverallSkillAverages (some u) (Except.error e1) (Except.ok []) =
      emptyAgg ∧
    getWeeklySkillTrends none q = [] ∧
    getWeeklySkillTrends (some u) (Except.error e1) = [] ∧
    getWeeklySkillTrends (some u) (Except.ok []) = [] ∧
    getMonthlySkillTrends none q = [] ∧
    getMonthlySkillTrends (some u) (Except.error e1) = [] ∧
    getMonthlySkillTrends (some u) (Except.ok []) = [] ∧
    getPerformanceSummary none db s e ok rpc mok = zeroSummary ∧
    getPerformanceSummary (some u) db s e false rpc mok = zeroSummary ∧
    getPerformanceSummary (some u) ⟨[], [], []⟩ s e ok rpc mok = zeroSummary := by
  refine ⟨rfl, rfl, rfl, ?_, rfl, rfl, ?_, rfl, rfl, rfl, rfl, ?_⟩
  · cases q <;> rfl
  · cases q <;> rfl
  · cases ok <;> rfl

/-- Store state used by the C2 counterexample: one active skill "A" and
one inactive skill "B". -/
def c2db : DB := ⟨[⟨"A", "Analysis", true⟩, ⟨"B", "Legacy", false⟩], [], []⟩

/-- Form whose rating map has the same size as the active-skill set but a
different key set: it rates the inactive skill "B" instead of "A". -/
def c2fd : FormData :=
  ⟨"t", "d", "2024-01-02", none, "high", true, false, none, false, [("B", 3)]⟩

/-- C2 (counterexample): the validation compares only sizes, so a rating
map rating the wrong skill (the inactive "B" instead of the active "A",
same size) passes validation and `submitTask` succeeds and persists the
task and the rating — the claimed validation error does not occur. -/
theorem c2_counterexample :
    submitTask (some "u") c2db c2fd true true true "t1" =
      (StoreResult.success,
        ⟨[⟨"A", "Analysis", true⟩, ⟨"B", "Legacy", false⟩],
          [⟨"t1", "u", "t", "d", "2024-01-02", none, "high", true, false,
            none, false⟩],
          [⟨"t1", "B", 3⟩]⟩) := by
  decide

/-- C2 (amended): `submitTask` and `updateTask` (the latter after the
ownership check passes) fail with the validation error and persist nothing
exactly on a rating-map size mismatch: the check is
`skill_ratings.size !== skills.length`, cardinality only, so only maps
whose size differs from the active-skill count are rejected. -/
theorem c2_amended_size_validation
    (uid : String) (db : DB) (fd : FormData) (tOk rOk : Bool)
    (newId taskId : String) :
    (fd.skill_ratings.length ≠ (getAllSkills db).length →
      submitTask (some uid) db fd true tOk rOk newId =
        (StoreResult.error "All skills must be rated", db)) ∧
    (∀ t, db.tasks.find? (fun x => x.id = taskId) = some t →
      t.user_id = uid →
      fd.skill_ratings.length ≠ (getAllSkills db).length →
      updateTask (some uid) db taskId fd true tOk rOk =
        (StoreResult.error "All skills must be rated", db)) := by
  constructor
  · intro h
    simp [submitTask, h]
  · intro t hfind howner h
    simp [updateTask, hfind, howner, h]

/-- Witness for C2 (amended): a concrete empty rating map against one
active skill is rejected by both operations with the database unchanged. -/
theorem c2_witness :
    submitTask (some "u")
        ⟨[⟨"A", "Analysis", true⟩],
          [⟨"t1", "u", "x", "y", "2024-01-01", none, "low", true, false,
            none, false⟩], []⟩
        ⟨"x", "y", "2024-01-01", none, "low", true, false, none, false, []⟩
        true true true "t9" =
      (StoreResult.error "All skills must be rated",
        ⟨[⟨"A", "Analysis", true⟩],
          [⟨"t1", "u", "x", "y", "2024-01-01", none, "low", true, false,
            none, false⟩], []⟩) ∧
    updateTask (some "u")
        ⟨[⟨"A", "Analysis", true⟩],
          [⟨"t1", "u", "x", "y", "2024-01-01", none, "low", true, false,
            none, false⟩], []⟩
        "t1"
        ⟨"x", "y", "2024-01-01", none, "low", true, false, none, false, []⟩
        true true true =
      (StoreResult.error "All skills must be rated",
        ⟨[⟨"A", "Analysis", true⟩],
          [⟨"t1", "u", "x", "y", "2024-01-01", none, "low", true, false,
            none, false⟩], []⟩) :=
  ⟨(c2_amended_size_validation "u"
      ⟨[⟨"A", "Analysis", true⟩],
        [⟨"t1", "u", "x", "y", "2024-01-01", none, "low", true, false,
          none, false⟩], []⟩
      ⟨"x", "y", "2024-01-01", none, "low", true, false, none, false, []⟩
      true true "t9" "t1").1 (by decide),
   (c2_amended_size_validation "u"
      ⟨[⟨"A", "Analysis", true⟩],
        [⟨"t1", "u", "x", "y", "2024-01-01", none, "low", true, false,
          none, false⟩], []⟩
      ⟨"x", "y", "2024-01-01", none, "low", true, false, none, false, []⟩
      true true "t9" "t1").2
     ⟨"t1", "u", "x", "y", "2024-01-01", none, "low", true, false, none, false⟩
     (by decide) (by decide) (by decide)⟩

/-- Store state used by the C3 counterexample: one active skill, one task
of user "u" with its one rating row. -/
def c3db : DB :=
  ⟨[⟨"A", "Analysis", true⟩],
    [⟨"t1", "u", "x", "y", "2024-01-01", none, "low", true, false, none,
      false⟩],
    [⟨"t1", "A", 3⟩]⟩

/-- C3 (counterexample): when the rating insert of `updateTask` fails, the
completed operation reports an error but leaves the updated task row
persisted with an empty rating set (the old rating rows were deleted and
not restored) — so after an update a task can persist without its full
rating set, refuting the claim for updates. -/
theorem c3_counterexample :
    updateTask (some "u") c3db "t1"
      ⟨"x2", "y2", "2024-01-02", none, "high", true, false, none, false,
        [("A", 4)]⟩
      true true false =
    (StoreResult.error "Failed to update skill ratings",
      ⟨[⟨"A", "Analysis", true⟩],
        [⟨"t1", "u", "x2", "y2", "2024-01-02", none, "high", true, false,
          none, false⟩],
        []⟩) := by
  decide

/-- C3 (amended): creation is atomic — when the rating insert of
`submitTask` fails after the task row was written, the task row is deleted
again and the reported failure leaves the database exactly as before.
Updates are not: when the rating insert of `updateTask` fails, the
operation reports an error but the task row (still present, with the
updated fields) has no rating rows left. -/
theorem c3_amended_atomicity :
    (∀ (uid : String) (db : DB) (fd : FormData) (newId : String),
      (∀ t ∈ db.tasks, t.id ≠ newId) →
      fd.skill_ratings.length = (getAllSkills db).length →
      submitTask (some uid) db fd true true false newId =
        (StoreResult.error "Failed to save skill ratings", db)) ∧
    (∀ (uid : String) (db : DB) (taskId : String) (fd : FormData)
        (t : TaskRow),
      db.tasks.find? (fun x => x.id = taskId) = some t →
      t.user_id = uid →
      fd.skill_ratings.length = (getAllSkills db).length →
      (updateTask (some uid) db taskId fd true true false).1 =
        StoreResult.error "Failed to update skill ratings" ∧
      ((updateTask (some uid) db taskId fd true true false).2.ratings.filter
        (fun r => r.task_id = taskId)) = [] ∧
      ∃ x ∈ (updateTask (some uid) db taskId fd true true false).2.tasks,
        x.id = taskId) := by
  constructor
  · intro uid db fd newId hfresh hlen
    have h1 : List.filter (fun t => !decide (t.id = newId)) db.tasks =
        db.tasks := by
      apply List.filter_eq_self.mpr
      intro t ht
      simp [hfresh t ht]
    have h2 : List.filter (fun t => !decide (t.id = newId))
        [taskFromForm newId uid fd] = [] := by
      simp [taskFromForm]
    simp [submitTask, hlen, h1, h2]
  · intro uid db taskId fd t hfind howner hlen
    have ht : t ∈ db.tasks := List.mem_of_find?_eq_some hfind
    have htid : t.id = taskId := by
      have := List.find?_some hfind
      exact of_decide_eq_true this
    refine ⟨?_, ?_, ?_⟩
    · simp [updateTask, hfind, howner, hlen]
    · simp only [updateTask, hfind, howner, hlen]
      simp [List.filter_filter]
    · simp only [updateTask, hfind, howner, hlen]
      refine ⟨applyFormUpdate t fd, ?_, htid⟩
      simp only [ne_eq, howner]
      refine List.mem_map.mpr ⟨t, ht, ?_⟩
      rw [if_pos htid]

/-- Witness for C3 (amended): concrete instances of both clauses — a
fresh create rolled back to the exact prior state, and an update left
with the task present and zero rating rows. -/
theorem c3_witness :
    submitTask (some "u") c3db
        ⟨"z", "w", "2024-02-01", none, "low", true, false, none, false,
          [("A", 5)]⟩
        true true false "t2" =
      (StoreResult.error "Failed to save skill ratings", c3db) ∧
    ((updateTask (some "u") c3db "t1"
        ⟨"z", "w", "2024-02-01", none, "low", true, false, none, false,
          [("A", 5)]⟩
        true true false).2.ratings.filter (fun r => r.task_id = "t1")) = [] :=
  ⟨c3_amended_atomicity.1 "u" c3db
      ⟨"z", "w", "2024-02-01", none, "low", true, false, none, false,
        [("A", 5)]⟩
      "t2" (by decide) (by decide),
   (c3_amended_atomicity.2 "u" c3db "t1"
      ⟨"z", "w", "2024-02-01", none, "low", true, false, none, false,
        [("A", 5)]⟩
      ⟨"t1", "u", "x", "y", "2024-01-01", none, "low", true, false, none,
        false⟩
      (by decide) (by decide) (by decide)).2.1⟩

/-- Store state used by the C7 counterexample: a task owned by "alice"
with one rating. -/
def c7db : DB :=
  ⟨[⟨"A", "Analysis", true⟩],
    [⟨"t1", "alice", "x", "y", "2024-01-01", none, "low", true, false,
      none, false⟩],
    [⟨"t1", "A", 5⟩]⟩

/-- C7 (counterexample): listing the tasks of another user does not fail
with an authorization error — it returns the empty list, the very output a
successful call produces for a user with no tasks ("carol"), so the
outcome is indistinguishable from success; and fetching an unowned task
returns `null`, the same outcome as fetching a nonexistent task. -/
theorem c7_counterexample :
    getUserTasks (some "bob") (some "alice") c7db 50 0 true = [] ∧
    getUserTasks (some "carol") none c7db 50 0 true = [] ∧
    getTaskById (some "bob") c7db "t1" = none ∧
    getTaskById (some "bob") c7db "missing" = none := by
  refine ⟨by decide, by decide, by decide, by decide⟩

/-- C7 (amended): ownership is enforced on every operation — unowned data
is never returned — but only `updateTask` and `deleteTask` surface an
explicit authorization error; `getTaskById` on an unowned task returns
`null` (the not-found outcome) and `getUserTasks` for another user returns
the empty list (an outcome indistinguishable from an empty success). -/
theorem c7_amended_authorization :
    (∀ (uid : String) (db : DB) (taskId : String) (fd : FormData)
        (f1 f2 f3 : Bool) (t : TaskRow),
      db.tasks.find? (fun x => x.id = taskId) = some t →
      t.user_id ≠ uid →
      updateTask (some uid) db taskId fd f1 f2 f3 =
        (StoreResult.error "Not authorized to update this task", db)) ∧
    (∀ (uid : String) (db : DB) (taskId : String) (dOk : Bool) (t : TaskRow),
      db.tasks.find? (fun x => x.id = taskId) = some t →
      t.user_id ≠ uid →
      deleteTask (some uid) db taskId dOk =
        (StoreResult.error "Not authorized to delete this task", db)) ∧
    (∀ (uid : String) (db : DB) (taskId : String) (t : TaskRow),
      db.tasks.find? (fun x => x.id = taskId) = some t →
      t.user_id ≠ uid →
      getTaskById (some uid) db taskId = none) ∧
    (∀ (uid target : String) (db : DB) (lim off : Nat) (ok : Bool),
      target ≠ uid →
      getUserTasks (some uid) (some target) db lim off ok = []) := by
  refine ⟨?_, ?_, ?_, ?_⟩
  · intro uid db taskId fd f1 f2 f3 t hfind howner
    simp [updateTask, hfind, howner]
  · intro uid db taskId dOk t hfind howner
    simp [deleteTask, hfind, howner]
  · intro uid db taskId t hfind howner
    simp [getTaskById, hfind, howner]
  · intro uid target db lim off ok h
    simp [getUserTasks, h]

/-- Witness for C7 (amended): all four clauses at the concrete store
state of the counterexample, with caller "bob" and owner "alice". -/
theorem c7_witness :
    updateTask (some "bob") c7db "t1"
        ⟨"z", "w", "2024-02-01", none, "low", true, false, none, false,
          [("A", 5)]⟩
        true true true =
      (StoreResult.error "Not authorized to update this task", c7db) ∧
    deleteTask (some "bob") c7db "t1" true =
      (StoreResult.error "Not authorized to delete this task", c7db) ∧
    getTaskById (some "bob") c7db "t1" = none ∧
    getUserTasks (some "bob") (some "alice") c7db 50 0 true = [] :=
  ⟨c7_amended_authorization.1 "bob" c7db "t1"
      ⟨"z", "w", "2024-02-01", none, "low", true, false, none, false,
        [("A", 5)]⟩
      true true true
      ⟨"t1", "alice", "x", "y", "2024-01-01", none, "low", true, false,
        none, false⟩
      (by decide) (by decide),
   c7_amended_authorization.2.1 "bob" c7db "t1" true
      ⟨"t1", "alice", "x", "y", "2024-01-01", none, "low", true, false,
        none, false⟩
      (by decide) (by decide),
   c7_amended_authorization.2.2.1 "bob" c7db "t1"
      ⟨"t1", "alice", "x", "y", "2024-01-01", none, "low", true, false,
        none, false⟩
      (by decide) (by decide),
   c7_amended_authorization.2.2.2 "bob" "alice" c7db 50 0 true (by decide)⟩

/-! ### Sum and count bookkeeping for the grouping -/

/-- Sum of all ratings stored in a skill map. -/
def groupSums (m : List (String × String × List Int)) : Int :=
  (m.map fun g => listSum g.2.2).sum

/-- Number of ratings stored in a skill map. -/
def groupCounts (m : List (String × String × List Int)) : Nat :=
  (m.map fun g => g.2.2.length).sum

theorem listSum_eq_sum (l : List Int) : listSum l = l.sum := by
  have aux : ∀ (l : List Int) (a : Int), l.foldl (· + ·) a = a + l.sum := by
    intro l
    induction l with
    | nil => intro a; simp
    | cons x xs ih =>
      intro a
      rw [List.foldl_cons, ih (a + x), List.sum_cons]
      ring
  simpa using aux l 0

theorem listSumQ_eq_sum (l : List Rat) : listSumQ l = l.sum := by
  have aux : ∀ (l : List Rat) (a : Rat), l.foldl (· + ·) a = a + l.sum := by
    intro l
    induction l with
    | nil => intro a; simp
    | cons x xs ih =>
      intro a
      rw [List.foldl_cons, ih (a + x), List.sum_cons]
      ring
  simpa using aux l 0

theorem listSum_snoc (l : List Int) (r : Int) :
    listSum (l ++ [r]) = listSum l + r := by
  simp [listSum_eq_sum]

theorem insertObs_groupSums (m : List (String × String × List Int))
    (id name : String) (r : Int) :
    groupSums (insertObs m id name r) = groupSums m + r := by
  induction m with
  | nil => simp [insertObs, groupSums, listSum_eq_sum]
  | cons g rest ih =>
    obtain ⟨k, n, rs⟩ := g
    by_cases h : k = id
    · simp only [insertObs, if_pos h, groupSums, List.map_cons, List.sum_cons,
        listSum_snoc]
      simp only [groupSums] at *
      omega
    · simp only [insertObs, if_neg h, groupSums, List.map_cons, List.sum_cons]
      simp only [groupSums] at ih
      omega

theorem insertObs_groupCounts (m : List (String × String × List Int))
    (id name : String) (r : Int) :
    groupCounts (insertObs m id name r) = groupCounts m + 1 := by
  induction m with
  | nil => simp [insertObs, groupCounts]
  | cons g rest ih =>
    obtain ⟨k, n, rs⟩ := g
    by_cases h : k = id
    · simp only [insertObs, if_pos h, groupCounts, List.map_cons,
        List.sum_cons, List.length_append, List.length_singleton]
      simp only [groupCounts] at *
      omega
    · simp only [insertObs, if_neg h, groupCounts, List.map_cons, List.sum_cons]
      simp only [groupCounts] at ih
      omega

/-- Partition property of the grouping loop: it distributes exactly the
valid observations over the groups — no rating is dropped or duplicated. -/
theorem buildSkillMap_partition (rows : List ObsRow) :
    groupSums (buildSkillMap rows) = listSum (validRatings rows) ∧
    groupCounts (buildSkillMap rows) = (validRatings rows).length := by
  have aux : ∀ (rows : List ObsRow) (m : List (String × String × List Int)),
      groupSums (rows.foldl obsStep m) =
        groupSums m + listSum (validRatings rows) ∧
      groupCounts (rows.foldl obsStep m) =
        groupCounts m + (validRatings rows).length := by
    intro rows
    induction rows with
    | nil => intro m; simp [validRatings, listSum_eq_sum]
    | cons row rows ih =>
      intro m
      obtain ⟨r, sk⟩ := row
      rcases sk with _ | ⟨id, name⟩
      · simpa [obsStep, validRatings, List.filterMap_cons] using ih m
      · by_cases h : id ≠ "" ∧ name ≠ ""
        · have h1 := ih (insertObs m id name r)
          constructor
          · rw [List.foldl_cons]
            show groupSums ((rows.foldl obsStep (obsStep m ⟨r, some (id, name)⟩))) = _
            rw [show obsStep m ⟨r, some (id, name)⟩ = insertObs m id name r by
              simp [obsStep, h]]
            rw [h1.1, insertObs_groupSums]
            have : validRatings (⟨r, some (id, name)⟩ :: rows) =
                r :: validRatings rows := by
              simp [validRatings, List.filterMap_cons, h]
            rw [this]
            simp [listSum_eq_sum]
            ring
          · rw [List.foldl_cons]
            rw [show obsStep m ⟨r, some (id, name)⟩ = insertObs m id name r by
              simp [obsStep, h]]
            rw [h1.2, insertObs_groupCounts]
            have : validRatings (⟨r, some (id, name)⟩ :: rows) =
                r :: validRatings rows := by
              simp [validRatings, List.filterMap_cons, h]
            rw [this]
            simp
            omega
        · have hstep : obsStep m ⟨r, some (id, name)⟩ = m := by
            simp only [obsStep, if_neg h]
          have hval : validRatings (⟨r, some (id, name)⟩ :: rows) =
              validRatings rows := by
            simp [validRatings, List.filterMap_cons, h]
          rw [List.foldl_cons, hstep, hval]
          exact ih m
  simpa [buildSkillMap, groupSums, groupCounts] using aux rows []

theorem groupCounts_const (m : List (String × String × List Int)) (c : Nat)
    (h : ∀ g ∈ m, g.2.2.length = c) : groupCounts m = c * m.length := by
  induction m with
  | nil => simp [groupCounts]
  | cons g rest ih =>
    have hg := h g (List.mem_cons_self g rest)
    have hrest := ih fun x hx => h x (List.mem_cons_of_mem _ hx)
    simp only [groupCounts, List.map_cons, List.sum_cons, List.length_cons]
    simp only [groupCounts] at hrest
    rw [hg, hrest]
    ring

theorem sum_avg_const_count (m : List (String × String × List Int)) (c : Nat)
    (h : ∀ g ∈ m, g.2.2.length = c) :
    ((m.map fun g =>
      ((listSum g.2.2 : Int) : Rat) / ((g.2.2.length : Nat) : Rat)).sum) =
      ((groupSums m : Int) : Rat) / ((c : Nat) : Rat) := by
  induction m with
  | nil => simp [groupSums]
  | cons g rest ih =>
    have hg := h g (List.mem_cons_self g rest)
    have hrest := ih fun x hx => h x (List.mem_cons_of_mem _ hx)
    simp only [List.map_cons, List.sum_cons, hrest, hg]
    rw [div_add_div_same]
    congr 1
    show ((listSum g.2.2 : Int) : Rat) + ((groupSums rest : Int) : Rat) = _
    have : groupSums (g :: rest) = listSum g.2.2 + groupSums rest := by
      simp [groupSums]
    rw [this]
    push_cast
    ring

/-- Under equal per-skill rating counts, the mean of the per-skill means
coincides with the mean of all the raw ratings that entered the
grouping. -/
theorem meanOfMeans_eq_rawMean (rows : List ObsRow) (c : Nat)
    (h : ∀ sa ∈ computeAllSkills rows, sa.rating_count = c) :
    meanOfMeans (computeAllSkills rows) = rawMean rows := by
  have hmap : ∀ g ∈ buildSkillMap rows, g.2.2.length = c := by
    intro g hg
    have := h (toSkillAverage g.1 g.2.1 g.2.2)
      (List.mem_map_of_mem (fun g => toSkillAverage g.1 g.2.1 g.2.2) hg)
    simpa [toSkillAverage] using this
  obtain ⟨hsum, hcount⟩ := buildSkillMap_partition rows
  unfold meanOfMeans rawMean computeAllSkills
  rw [listSumQ_eq_sum, List.map_map, List.length_map]
  have hcomp : ((buildSkillMap rows).map
      ((fun sa : SkillAverage => sa.average_rating) ∘
        fun g => toSkillAverage g.1 g.2.1 g.2.2)).sum =
      ((groupSums (buildSkillMap rows) : Int) : Rat) / ((c : Nat) : Rat) := by
    rw [show ((fun sa : SkillAverage => sa.average_rating) ∘
        fun g : String × String × List Int => toSkillAverage g.1 g.2.1 g.2.2) =
        fun g : String × String × List Int =>
          ((listSum g.2.2 : Int) : Rat) / ((g.2.2.length : Nat) : Rat) from rfl]
    exact sum_avg_const_count (buildSkillMap rows) c hmap
  rw [hcomp, hsum.symm, hcount.symm, div_div,
    groupCounts_const (buildSkillMap rows) c hmap]
  congr 1
  push_cast
  ring

/-- Aggregation state used by the C4 evaluation: user "u" has a task t1
dated day 10 rating skill s1 with 5, and a task t2 dated day 100 rating
s1 with 1. -/
def c4db : AggDB :=
  ⟨[⟨"t1", "u", 10, true, false, false⟩, ⟨"t2", "u", 100, true, false, false⟩],
    [⟨"t1", "s1", 5⟩, ⟨"t2", "s1", 1⟩],
    [⟨"s1", "Testing"⟩]⟩

/-- C4 (code bug, evaluated at the failing input): with the date filter
[0, 50] only task t1 is in range (`total_tasks = 1`), yet the summary's
`skill_averages` is computed from the all-time observation set — skill s1
appears with mean 3 over both ratings 5 and 1 — while the same computation
restricted to the in-range observation set gives mean 5 over one rating.
The source comment says the averages are fetched for the period; the call
it makes is the unparametrized all-time one. -/
theorem c4_code_evaluation :
    (getPerformanceSummary (some "u") c4db (some 0) (some 50) true
      (Except.error "e") true).total_tasks = 1 ∧
    (getPerformanceSummary (some "u") c4db (some 0) (some 50) true
      (Except.error "e") true).skill_averages =
      [⟨"s1", "Testing", 3, 2, 1, 5⟩] ∧
    (rankSkills (computeAllSkills [⟨5, some ("s1", "Testing")⟩])).all_skills =
      [⟨"s1", "Testing", 5, 1, 5, 5⟩] ∧
    ((3 : Rat) ≠ 5 ∧ (2 : Nat) ≠ 1) := by
  have hobs : obsForUser
      ⟨[⟨"t1", "u", 10, true, false, false⟩,
        ⟨"t2", "u", 100, true, false, false⟩],
        [⟨"t1", "s1", 5⟩, ⟨"t2", "s1", 1⟩],
        [⟨"s1", "Testing"⟩]⟩ "u" =
      [⟨5, some ("s1", "Testing")⟩, ⟨1, some ("s1", "Testing")⟩] := by
    decide
  refine ⟨?_, ?_, ?_, by norm_num⟩ <;>
    norm_num +decide [getPerformanceSummary, filteredTasks, hobs,
      getOverallSkillAverages, rankSkills, computeAllSkills, buildSkillMap,
      obsStep, insertObs, toSkillAverage, jsSort, insertRanked, avgDescLe,
      listSum, listSumQ, jsMin, jsMax, c4db]

/-- C8 (confirmed): whenever the date-filtered task set of the caller is
empty, the summary is exactly the all-zero record — total 0, overall
average 0, all three rates 0, all three lists empty — with no error (the
division branch is never reached). -/
theorem c8_empty_summary (uid : String) (db : AggDB) (s e : Option Int)
    (rpc : Except String (List SkillAverage)) (mok : Bool)
    (h : filteredTasks db uid s e = []) :
    getPerformanceSummary (some uid) db s e true rpc mok = zeroSummary := by
  simp [getPerformanceSummary, h]

/-- Witness for C8: a store holding only a task of another user "v" gives
user "u" an empty filtered set and the zero summary. -/
theorem c8_witness :
    filteredTasks ⟨[⟨"t1", "v", 10, true, false, false⟩], [], []⟩ "u"
      none none = [] ∧
    getPerformanceSummary (some "u")
      ⟨[⟨"t1", "v", 10, true, false, false⟩], [], []⟩ none none true
      (Except.error "e") true = zeroSummary :=
  ⟨by decide,
   c8_empty_summary "u" ⟨[⟨"t1", "v", 10, true, false, false⟩], [], []⟩
     none none (Except.error "e") true (by decide)⟩

/-- C9 (amended): the summary's `overall_average` is the arithmetic mean
of the per-skill means in its `skill_averages` field (a mean of means),
and that field is a permutation of the grouped per-skill averages of the
all-time observation set; the mean of means coincides with the mean of all
raw ratings whenever all skills have equal rating counts — so unequal
counts are necessary, but not sufficient, for the two to differ. -/
theorem c9_amended_mean_of_means :
    (∀ (uid : String) (db : AggDB) (s e : Option Int) (er : String),
      (getPerformanceSummary (some uid) db s e true (Except.error er)
        true).overall_average =
        meanOfMeans ((getPerformanceSummary (some uid) db s e true
          (Except.error er) true).skill_averages) ∧
      (filteredTasks db uid s e ≠ [] →
        ((getPerformanceSummary (some uid) db s e true (Except.error er)
          true).skill_averages).Perm
          (computeAllSkills (obsForUser db uid)))) ∧
    (∀ (rows : List ObsRow) (c : Nat),
      (∀ sa ∈ computeAllSkills rows, sa.rating_count = c) →
      meanOfMeans (computeAllSkills rows) = rawMean rows) := by
  constructor
  · intro uid db s e er
    by_cases ht : filteredTasks db uid s e = []
    · refine ⟨?_, fun h => absurd ht h⟩
      simp [getPerformanceSummary, ht, zeroSummary, meanOfMeans, listSumQ]
    · have hlen : ¬ (filteredTasks db uid s e).length = 0 := by
        simpa [List.length_eq_zero] using ht
      constructor
      · simp only [getPerformanceSummary, if_pos, if_neg hlen, if_true]
        rcases hA : (getOverallSkillAverages (some uid) (Except.error er)
            (Except.ok (obsForUser db uid))).all_skills with _ | ⟨a, as⟩
        · simp [hA, meanOfMeans, listSumQ]
        · simp only [hA, meanOfMeans, listSumQ_eq_sum]
          rw [if_pos (by simp)]
      · intro _
        simp only [getPerformanceSummary, if_neg hlen, if_true]
        exact jsSort_perm avgDescLe (computeAllSkills (obsForUser db uid))
  · intro rows c h
    exact meanOfMeans_eq_rawMean rows c h

/-- Witness for C9 (amended): the permutation clause at a one-task store,
and the equal-counts coincidence at a single observation. -/
theorem c9_witness :
    ((getPerformanceSummary (some "u")
      ⟨[⟨"t1", "u", 10, true, false, false⟩], [⟨"t1", "s1", 4⟩],
        [⟨"s1", "Testing"⟩]⟩ none none true (Except.error "e")
      true).skill_averages).Perm
      (computeAllSkills (obsForUser
        ⟨[⟨"t1", "u", 10, true, false, false⟩], [⟨"t1", "s1", 4⟩],
          [⟨"s1", "Testing"⟩]⟩ "u")) ∧
    meanOfMeans (computeAllSkills [⟨4, some ("s1", "Testing")⟩]) =
      rawMean [⟨4, some ("s1", "Testing")⟩] :=
  ⟨(c9_amended_mean_of_means.1 "u"
      ⟨[⟨"t1", "u", 10, true, false, false⟩], [⟨"t1", "s1", 4⟩],
        [⟨"s1", "Testing"⟩]⟩ none none "e").2 (by decide),
   c9_amended_mean_of_means.2 [⟨4, some ("s1", "Testing")⟩] 1 (by decide)⟩

/-- C9 (counterexample): at a store where skill A has ratings 1 and 5
(count 2, mean 3) and skill B has one rating 3 (count 1, mean 3), the
summary's overall average, the mean of means, and the raw mean are all 3
while the rating counts are unequal — refuting the claim that the mean of
means and the raw mean differ exactly when counts are unequal. -/
theorem c9_counterexample :
    ¬ (((getPerformanceSummary (some "u")
        ⟨[⟨"t1", "u", 10, true, false, false⟩, ⟨"t2", "u", 20, true, false,
          false⟩],
          [⟨"t1", "A", 1⟩, ⟨"t1", "B", 3⟩, ⟨"t2", "A", 5⟩],
          [⟨"A", "Analysis"⟩, ⟨"B", "Planning"⟩]⟩
        none none true (Except.error "e") true).overall_average ≠
      rawMean (obsForUser
        ⟨[⟨"t1", "u", 10, true, false, false⟩, ⟨"t2", "u", 20, true, false,
          false⟩],
          [⟨"t1", "A", 1⟩, ⟨"t1", "B", 3⟩, ⟨"t2", "A", 5⟩],
          [⟨"A", "Analysis"⟩, ⟨"B", "Planning"⟩]⟩ "u") ↔
      (∃ sa1 ∈ (getPerformanceSummary (some "u")
        ⟨[⟨"t1", "u", 10, true, false, false⟩, ⟨"t2", "u", 20, true, false,
          false⟩],
          [⟨"t1", "A", 1⟩, ⟨"t1", "B", 3⟩, ⟨"t2", "A", 5⟩],
          [⟨"A", "Analysis"⟩, ⟨"B", "Planning"⟩]⟩
        none none true (Except.error "e") true).skill_averages,
        ∃ sa2 ∈ (getPerformanceSummary (some "u")
        ⟨[⟨"t1", "u", 10, true, false, false⟩, ⟨"t2", "u", 20, true, false,
          false⟩],
          [⟨"t1", "A", 1⟩, ⟨"t1", "B", 3⟩, ⟨"t2", "A", 5⟩],
          [⟨"A", "Analysis"⟩, ⟨"B", "Planning"⟩]⟩
        none none true (Except.error "e") true).skill_averages,
        sa1.rating_count ≠ sa2.rating_count))) := by
  have hobs : obsForUser
      ⟨[⟨"t1", "u", 10, true, false, false⟩, ⟨"t2", "u", 20, true, false,
        false⟩],
        [⟨"t1", "A", 1⟩, ⟨"t1", "B", 3⟩, ⟨"t2", "A", 5⟩],
        [⟨"A", "Analysis"⟩, ⟨"B", "Planning"⟩]⟩ "u" =
      [⟨1, some ("A", "Analysis")⟩, ⟨3, some ("B", "Planning")⟩,
        ⟨5, some ("A", "Analysis")⟩] := by
    decide
  have hsum : (getPerformanceSummary (some "u")
      ⟨[⟨"t1", "u", 10, true, false, false⟩, ⟨"t2", "u", 20, true, false,
        false⟩],
        [⟨"t1", "A", 1⟩, ⟨"t1", "B", 3⟩, ⟨"t2", "A", 5⟩],
        [⟨"A", "Analysis"⟩, ⟨"B", "Planning"⟩]⟩
      none none true (Except.error "e") true).skill_averages =
      [⟨"A", "Analysis", 3, 2, 1, 5⟩, ⟨"B", "Planning", 3, 1, 3, 3⟩] := by
    norm_num +decide [getPerformanceSummary, filteredTasks, hobs,
      getOverallSkillAverages, rankSkills, computeAllSkills, buildSkillMap,
      obsStep, insertObs, toSkillAverage, jsSort, insertRanked, avgDescLe,
      listSum, jsMin, jsMax]
  have hover : (getPerformanceSummary (some "u")
      ⟨[⟨"t1", "u", 10, true, false, false⟩, ⟨"t2", "u", 20, true, false,
        false⟩],
        [⟨"t1", "A", 1⟩, ⟨"t1", "B", 3⟩, ⟨"t2", "A", 5⟩],
        [⟨"A", "Analysis"⟩, ⟨"B", "Planning"⟩]⟩
      none none true (Except.error "e") true).overall_average = 3 := by
    norm_num +decide [getPerformanceSummary, filteredTasks, hobs,
      getOverallSkillAverages, rankSkills, computeAllSkills, buildSkillMap,
      obsStep, insertObs, toSkillAverage, jsSort, insertRanked, avgDescLe,
      listSum, listSumQ, jsMin, jsMax]
  have hraw : rawMean
      [⟨1, some ("A", "Analysis")⟩, ⟨3, some ("B", "Planning")⟩,
        ⟨5, some ("A", "Analysis")⟩] = 3 := by
    norm_num +decide [rawMean, validRatings, List.filterMap_cons, listSum]
  intro hiff
  rw [hobs, hsum, hover, hraw] at hiff
  have hexists : ∃ sa1 ∈ [(⟨"A", "Analysis", 3, 2, 1, 5⟩ : SkillAverage),
      ⟨"B", "Planning", 3, 1, 3, 3⟩],
      ∃ sa2 ∈ [(⟨"A", "Analysis", 3, 2, 1, 5⟩ : SkillAverage),
      ⟨"B", "Planning", 3, 1, 3, 3⟩], sa1.rating_count ≠ sa2.rating_count := by
    refine ⟨⟨"A", "Analysis", 3, 2, 1, 5⟩, by simp,
      ⟨"B", "Planning", 3, 1, 3, 3⟩, by simp, by norm_num⟩
  exact (hiff.mpr hexists) rfl

end EmpPerf
